import Mathlib

/-!
Verification of the yate SS7 router / SNM management / ASN.1 BER core
against its natural-language specification.

Shallow embedding of:
  * src/libs/yasn/asn.cpp   (ASNLib BER encoder/decoder, ASNObjId)
  * src/libs/ysig/router.cpp (SS7Route, SS7Router)
  * src/unnamed/part_000     (SS7Management: changeover handling, pending table)

DataBlock values are modelled as `List Nat` of byte values; an in-place
`cut` from the front becomes `List.drop`; reading past the end of a block
is modelled as returning 0.  Mutable object state is passed explicitly and
side effects (inhibit requests, transmissions, postponed messages) are
returned as data.
-/

set_option linter.unusedVariables false

/-! ## ASN.1 BER codec (src/libs/yasn/asn.cpp) -/

/-- Error code InvalidLengthOrTag = -1. -/
def ASNLib.InvalidLengthOrTag : Int := -1

/-- Error code InvalidContentsError = -2. -/
def ASNLib.InvalidContentsError : Int := -2

/-- Error code ParseError = -3. -/
def ASNLib.ParseError : Int := -3

/-- Universal tag BOOLEAN = 0x01. -/
def ASNLib.BOOLEAN : Nat := 0x01

/-- Universal tag INTEGER = 0x02. -/
def ASNLib.INTEGER : Nat := 0x02

/-- Universal tag BIT_STRING = 0x03. -/
def ASNLib.BIT_STRING : Nat := 0x03

/-- Universal tag OBJECT_IDENTIFIER = 0x06. -/
def ASNLib.OBJECT_ID : Nat := 0x06

/-- ASNLib::decodeLength (asn.cpp 37-63).  Returns the decoded length (or a
negative error code) together with the remaining data after the cut.
Long form: leading byte 0x80|N then N big-endian bytes; N = 0 or
N > sizeof(int) = 4 is InvalidLengthOrTag, detected before any cut.  The
accumulator is the source's 32-bit int: a 4-byte length at or above 2^31
wraps negative and is returned after the n+1 bytes have been cut. -/
def ASNLib.decodeLength (data : List Nat) : Int × List Nat :=
  let lengthByte := data.headD 0
  if lengthByte &&& 0x80 ≠ 0 then
    let n := lengthByte &&& 0x7F
    if n = 0 then (ASNLib.InvalidLengthOrTag, data)
    else if n > 4 then (ASNLib.InvalidLengthOrTag, data)
    else
      let length :=
        (List.range n).foldl (fun acc i => (acc * 256 + data.getD (1 + i) 0) % 2 ^ 32) 0
      let signed : Int := if length < 2 ^ 31 then (length : Int) else (length : Int) - 2 ^ 32
      (signed, data.drop (n + 1))
  else ((lengthByte : Int), data.drop 1)

/-- Big-endian bytes of a nonzero length, as built by the insertion loop of
ASNLib::buildLength (asn.cpp 76-87). -/
def lenBytesBE (n : Nat) : List Nat :=
  if h : n = 0 then [] else lenBytesBE (n >>> 8) ++ [n &&& 0xFF]
termination_by n
decreasing_by
  simp only [Nat.shiftRight_eq_div_pow]
  exact Nat.div_lt_self (Nat.pos_of_ne_zero h) (by norm_num)

/-- ASNLib::buildLength (asn.cpp 65-89) on a content block of the given
length: short form below 0x80, else 0x80|N followed by N big-endian bytes. -/
def ASNLib.buildLength (contentLen : Nat) : List Nat :=
  if contentLen < 0x80 then [contentLen]
  else (0x80 ||| (lenBytesBE contentLen).length) :: lenBytesBE contentLen

/-- ASNLib::decodeBoolean (asn.cpp 91-134), with a valid output buffer.
Result: (return code, remaining data, decoded value if any). -/
def ASNLib.decodeBoolean (data : List Nat) (tagCheck : Bool) : Int × List Nat × Option Bool :=
  if data.length < 2 then (ASNLib.InvalidLengthOrTag, data, none)
  else if tagCheck = true ∧ data.headD 0 ≠ ASNLib.BOOLEAN then (ASNLib.InvalidLengthOrTag, data, none)
  else
    let d0 := if tagCheck then data.drop 1 else data
    let r := ASNLib.decodeLength d0
    if r.1 < 0 then (r.1, r.2, none)
    else if r.1.toNat > r.2.length ∨ r.1 ≠ 1 then (ASNLib.InvalidLengthOrTag, r.2, none)
    else (r.1, r.2.drop 1, some (r.2.headD 0 != 0))

/-- Value of an 8-bit group, most significant bit first, as parsed by
String::toInteger(0,2) on the 8-character substring in
ASNLib::encodeBitString (asn.cpp 914-917). -/
def bitsToByte (bits : List Bool) : Nat :=
  bits.foldl (fun a b => 2 * a + (if b then 1 else 0)) 0

/-- The byte groups of a padded bit list (multiples of 8 only; the encoder
always pads to a multiple of 8 before chunking). -/
def chunk8 : List Bool → List Nat
  | b7 :: b6 :: b5 :: b4 :: b3 :: b2 :: b1 :: b0 :: rest =>
      bitsToByte [b7, b6, b5, b4, b3, b2, b1, b0] :: chunk8 rest
  | _ => []

/-- ASNLib::encodeBitString (asn.cpp 899-927).  The bit characters are
modelled as booleans.  Note trail = 8 - len % 8, which is 8 (not 0) when
the length is a multiple of 8, and trail is emitted as the unused-bits
octet. -/
def ASNLib.encodeBitString (bits : List Bool) (tagCheck : Bool) : List Nat :=
  let trail := 8 - bits.length % 8
  let padded := bits ++ List.replicate trail false
  let contents := trail :: chunk8 padded
  if tagCheck then ASNLib.BIT_STRING :: (ASNLib.buildLength contents.length ++ contents)
  else contents

/-- The 8 bits of a byte, most significant first, as appended by the inner
loop of ASNLib::decodeBitString (asn.cpp 331-338). -/
def byteToBits (b : Nat) : List Bool :=
  (List.range 8).map (fun i => (b >>> (7 - i)) % 2 == 1)

/-- Bit expansion of a byte list. -/
def bytesToBits : List Nat → List Bool
  | [] => []
  | b :: rest => byteToBits b ++ bytesToBits rest

/-- ASNLib::decodeBitString (asn.cpp 287-346), with a valid output buffer.
Rejects an unused-bits octet greater than 7.  After the unused-bits octet
is cut the int length is decremented: at encoded content length 0 it
becomes -1, the bit loop and substr leave the output empty, cut(-length)
removes one byte from the end of the block, and -1 is returned.
Result: (return code, remaining data, decoded bits if any). -/
def ASNLib.decodeBitString (data : List Nat) (tagCheck : Bool) :
    Int × List Nat × Option (List Bool) :=
  if data.length < 2 then (ASNLib.InvalidLengthOrTag, data, none)
  else if tagCheck = true ∧ data.headD 0 ≠ ASNLib.BIT_STRING then (ASNLib.InvalidLengthOrTag, data, none)
  else
    let d0 := if tagCheck then data.drop 1 else data
    let r := ASNLib.decodeLength d0
    if r.1 < 0 then (r.1, r.2, none)
    else if r.1.toNat > r.2.length then (ASNLib.InvalidLengthOrTag, r.2, none)
    else if r.2.headD 0 > 7 then (ASNLib.InvalidLengthOrTag, r.2, none)
    else
      let unused := r.2.headD 0
      let d1 := r.2.drop 1
      let length : Int := r.1 - 1
      if length < 0 then (length, d1.dropLast, some [])
      else
        let out := (bytesToBits (d1.take length.toNat)).take (length.toNat * 8 - unused)
        (length, d1.drop length.toNat, some out)

/-- The byte-count shrinking loop of ASNLib::encodeInteger (asn.cpp
869-876): starting from size = 8, while the 9 bits msb = intVal >>
((size-1)*8-1) masked to 0x1FF equal 0 or 0xFF and size-1 >= 1, decrement
size.  The comparison against 0xFF (instead of 0x1FF) is exactly the
source's. -/
def stripSize (intVal : Nat) : Nat → Nat
  | 0 => 0
  | 1 => 1
  | n + 2 =>
    let msb := (intVal >>> ((n + 1) * 8 - 1)) &&& 0x1FF
    if msb = 0 ∨ msb = 0xFF then stripSize intVal (n + 1) else n + 2

/-- The content bytes of ASNLib::encodeInteger (asn.cpp 880-885): bytes
intVal >> ((size-1)*8) down to intVal >> 0, each truncated to 8 bits. -/
def intContents (intVal : Nat) : Nat → List Nat
  | 0 => []
  | s + 1 => ((intVal >>> (s * 8)) &&& 0xFF) :: intContents intVal s

/-- ASNLib::encodeInteger (asn.cpp 861-897).  The u_int64_t argument is a
natural number below 2^64 (negative C values are their two's-complement
bit pattern). -/
def ASNLib.encodeInteger (intVal : Nat) (tagCheck : Bool) : List Nat :=
  let size := stripSize intVal 8
  if size = 0 then []
  else
    let contents := intContents intVal size
    if contents.length = 0 then []
    else if tagCheck then ASNLib.INTEGER :: (ASNLib.buildLength contents.length ++ contents)
    else contents

/-- ASNLib::decodeInteger (asn.cpp 136-181).  The value accumulator is a
u_int64_t: it starts at all-ones when the first content byte has its top
bit set, and each step shifts in one byte modulo 2^64.  Result: (return
code, remaining data, decoded u64 value if any). -/
def ASNLib.decodeInteger (data : List Nat) (tagCheck : Bool) : Int × List Nat × Option Nat :=
  if data.length < 2 then (ASNLib.InvalidLengthOrTag, data, none)
  else if tagCheck = true ∧ data.headD 0 ≠ ASNLib.INTEGER then (ASNLib.InvalidLengthOrTag, data, none)
  else
    let d0 := if tagCheck then data.drop 1 else data
    let r := ASNLib.decodeLength d0
    if r.1 < 0 then (r.1, r.2, none)
    else if r.1.toNat > r.2.length then (ASNLib.InvalidLengthOrTag, r.2, none)
    else
      let v0 : Nat := if (r.2.headD 0) &&& 0x80 ≠ 0 then 2 ^ 64 - 1 else 0
      let value := (r.2.take r.1.toNat).foldl (fun acc b => ((acc <<< 8) ||| b) % 2 ^ 64) v0
      (r.1, r.2.drop r.1.toNat, some value)

/-- Splitting of a character list at dots, as String::split with
noEmpty handled by a later filter (the source splits the OID string with
separator character dot and discards empty tokens). -/
def splitOnDot : List Char → List Char → List (List Char)
  | [], acc => [acc.reverse]
  | c :: rest, acc =>
    if c = '.' then acc.reverse :: splitOnDot rest [] else splitOnDot rest (c :: acc)

/-- Decimal value of a digit-only token, 0 otherwise (String::toInteger
with default 0, restricted to the unsigned decimal forms the OID code
produces). -/
def parseDec (cs : List Char) : Nat :=
  if !cs.isEmpty && cs.all (fun c => c.isDigit) then
    cs.foldl (fun a c => a * 10 + (c.toNat - 48)) 0
  else 0

/-- The continuation bytes built by the inner while loop of
ASNObjId::toDataBlock (asn.cpp 1222-1231): 7-bit groups, high groups
first, each with bit 0x80 set. -/
def base128cont (v : Nat) : List Nat :=
  if h : v = 0 then [] else base128cont (v >>> 7) ++ [(v &&& 0x7F) ||| 0x80]
termination_by v
decreasing_by
  simp only [Nat.shiftRight_eq_div_pow]
  exact Nat.div_lt_self (Nat.pos_of_ne_zero h) (by norm_num)

/-- Bytes of one subidentifier (ASNObjId::toDataBlock, asn.cpp 1211-1233):
a single byte below 128, else base-128 with continuation bit 0x80 on the
non-terminal bytes. -/
def subidBytes (val : Nat) : List Nat :=
  if val < 128 then [val] else base128cont (val >>> 7) ++ [val &&& 0x7F]

/-- Concatenation of byte groups. -/
def concatAll : List (List Nat) → List Nat
  | [] => []
  | l :: rest => l ++ concatAll rest

/-- ASNObjId::toDataBlock / getIds (asn.cpp 1203-1243): split the dotted
string, parse each component, emit its subidentifier bytes. -/
def ASNObjId.getIds (value : String) : List Nat :=
  concatAll ((((splitOnDot value.data []).filter (fun cs => !cs.isEmpty)).map parseDec).map subidBytes)

/-- ASNLib::encodeOID (asn.cpp 963-992): when the ids begin with bytes 1, 3
those two bytes are replaced by the single byte 0x2B, then tag and length
are prepended. -/
def ASNLib.encodeOID (value : String) (tagCheck : Bool) : List Nat :=
  let cont := ASNObjId.getIds value
  if cont.isEmpty then []
  else
    let contents :=
      if cont.headD 0 == 1 && cont.getD 1 0 == 3 then 0x2B :: cont.drop 2 else cont
    if tagCheck then ASNLib.OBJECT_ID :: (ASNLib.buildLength contents.length ++ contents)
    else contents

/-- The decoding loop of ASNLib::decodeOID (asn.cpp 452-471) over the
indexed content bytes: byte 0x2B at index 0 contributes the text 1.3.,
otherwise 7-bit groups are accumulated (shifted after each continuation
byte) and emitted in decimal, with a dot after every subidentifier except
the one ending at the last byte. -/
def oidFold (len : Nat) : List (Nat × Nat) → String → Nat → String
  | [], oid, _ => oid
  | (j, byte) :: rest, oid, longNo =>
    if j == 0 && byte == 0x2B then oidFold len rest (oid ++ "1.3.") longNo
    else
      let l2 := longNo + (byte &&& 0x7F)
      if byte &&& 0x80 == 0x80 then oidFold len rest oid (l2 <<< 7)
      else oidFold len rest (oid ++ Nat.repr l2 ++ (if j == len - 1 then "" else ".")) 0

/-- ASNLib::decodeOID (asn.cpp 415-483), with a valid output object.
Result: (return code, remaining data, decoded dotted string if any). -/
def ASNLib.decodeOID (data : List Nat) (tagCheck : Bool) : Int × List Nat × Option String :=
  if data.length < 2 then (ASNLib.InvalidLengthOrTag, data, none)
  else if tagCheck = true ∧ data.headD 0 ≠ ASNLib.OBJECT_ID then (ASNLib.InvalidLengthOrTag, data, none)
  else
    let d0 := if tagCheck then data.drop 1 else data
    let r := ASNLib.decodeLength d0
    if r.1 < 0 then (r.1, r.2, none)
    else if r.1.toNat > r.2.length then (ASNLib.InvalidLengthOrTag, r.2, none)
    else if r.1.toNat = 0 then (0, r.2, none)
    else
      let len := r.1.toNat
      ((len : Int), r.2.drop len, some (oidFold len ((r.2.take len).enum) "" 0))

/-! ## SS7 routes and router (src/libs/ysig/router.cpp) -/

/-- HandledMSU dispositions of a user part (yatesig.h, used by
SS7Router::receivedMSU).  Unknown is the default-constructed value of the
local variable ret. -/
inductive HandledMSU
  | Unknown
  | Accepted
  | Rejected
  | Unequipped
  | Inaccessible
  | NoAddress
  | Failure
deriving DecidableEq

/-- One attached network of a route, for transmission: its identity and
the result its transmitMSU(msu,label,sls) returns for the MSU at hand. -/
structure NetSim where
  id : Nat
  tx : Int
deriving DecidableEq

/-- The transmission loop of SS7Route::transmitMSU (router.cpp 177-188):
try each network in turn, return the first result different from -1. -/
def tryTransmit : List NetSim → Int
  | [] => -1
  | n :: rest => if n.tx = -1 then tryTransmit rest else n.tx

/-- Modelled from the spec: a ListIterator constructed with a start offset
(yate engine, not in src) visits the list once, starting at index
offset mod length and wrapping around. -/
def rotateAt (l : List NetSim) (k : Nat) : List NetSim :=
  l.drop (k % l.length) ++ l.take (k % l.length)

/-- SS7Route::transmitMSU (router.cpp 172-191): iterate the attached
networks starting at index sls >> shift and return the first result
different from -1, else -1.  The source argument is accepted but never
read by the body, exactly as in the source. -/
def SS7Route.transmitMSU (nets : List NetSim) (shift : Nat) (sls : Nat)
    (source : Option Nat) : Int :=
  tryTransmit (rotateAt nets (sls >>> shift))

/-- First non-negative element of a result list, else -1. -/
def firstNonNeg : List Int → Int
  | [] => -1
  | x :: rest => if 0 ≤ x then x else firstNonNeg rest

/-- The claim's wording of SS7Route::transmitMSU, for comparison: iterate
from index sls >> shift, skip the source network, return the first
non-negative result, else -1. -/
def transmitMSU_claimed (nets : List NetSim) (shift : Nat) (sls : Nat)
    (source : Option Nat) : Int :=
  firstNonNeg (((rotateAt nets (sls >>> shift)).filter
    (fun n => source != some n.id)).map (fun n => n.tx))

/-- A route as found by findRoute: its networks (with the route's SLS
shift) for SS7Route::transmitMSU.  Modelled from the spec: findRoute
(yatesig.h, not in src) yields the route for the label's packed DPC whose
state is in the wanted set, or nothing. -/
structure RouteSim where
  nets : List NetSim
  shift : Nat
deriving DecidableEq

/-- SS7Router::routeMSU (router.cpp 532-548): the found route's
transmitMSU result, or -1 when no route matches. -/
def SS7Router.routeMSU (route : Option RouteSim) (sls : Nat) (source : Option Nat) : Int :=
  match route with
  | some r => SS7Route.transmitMSU r.nets r.shift sls source
  | none => -1

/-- Router configuration flags read by SS7Router::receivedMSU:
transfer (STP mode), m_sendUnavail (sendupu), m_sendProhibited (sendtfp). -/
structure RouterCfg where
  transfer : Bool
  sendUnavail : Bool
  sendProhibited : Bool
deriving DecidableEq

/-- The user-part scan of SS7Router::receivedMSU (router.cpp 571-600):
Accepted and Failure return immediately, Rejected keeps the tentative
result, anything else replaces it.  (The changes-counter rescan has no
effect in this pure setting, where the list cannot mutate mid-scan.) -/
def scanL4 : List HandledMSU → HandledMSU → Sum HandledMSU HandledMSU
  | [], ret => Sum.inr ret
  | h :: rest, ret =>
    match h with
    | HandledMSU.Accepted => Sum.inl HandledMSU.Accepted
    | HandledMSU.Failure => Sum.inl HandledMSU.Failure
    | HandledMSU.Rejected => scanL4 rest ret
    | other => scanL4 rest other

/-- The tail of SS7Router::receivedMSU after the post-scan switch
(router.cpp 612-623): local DPC handling, then STP forwarding through
routeMSU, then Failure. -/
def routerTail (cfg : RouterCfg) (localDpc : Bool) (route : Option RouteSim)
    (sls : Nat) (src : Option Nat) : HandledMSU :=
  if localDpc then
    (if cfg.sendUnavail then HandledMSU.Unequipped else HandledMSU.Failure)
  else if cfg.transfer then
    (if 0 ≤ SS7Router.routeMSU route sls src then HandledMSU.Accepted
     else if cfg.sendProhibited then HandledMSU.NoAddress else HandledMSU.Failure)
  else HandledMSU.Failure

/-- SS7Router::receivedMSU (router.cpp 563-624).  rsp are the user parts'
dispositions in attachment order; localDpc is whether the DPC equals the
router's or the receiving network's local point code; route is the
NotProhibited route found for the label. -/
def SS7Router.receivedMSU (cfg : RouterCfg) (rsp : List HandledMSU) (localDpc : Bool)
    (route : Option RouteSim) (sls : Nat) (src : Option Nat) : HandledMSU :=
  match scanL4 rsp HandledMSU.Unknown with
  | Sum.inl r => r
  | Sum.inr HandledMSU.Unequipped =>
      if cfg.sendUnavail then HandledMSU.Unequipped else HandledMSU.Failure
  | Sum.inr HandledMSU.Inaccessible =>
      if cfg.sendUnavail then HandledMSU.Inaccessible else HandledMSU.Failure
  | Sum.inr _ => routerTail cfg localDpc route sls src

/-- SS7Route::State.  Modelled from the spec: the state lattice order is
Prohibited < Unknown < Restricted < Congestion < Allowed (yatesig.h enum
not in src). -/
inductive SS7RouteState
  | Prohibited
  | Unknown
  | Restricted
  | Congestion
  | Allowed
deriving DecidableEq

/-- Modelled from the spec: numeric rank realizing the state lattice
order. -/
def SS7RouteState.ord : SS7RouteState → Nat
  | SS7RouteState.Prohibited => 0
  | SS7RouteState.Unknown => 1
  | SS7RouteState.Restricted => 2
  | SS7RouteState.Congestion => 3
  | SS7RouteState.Allowed => 4

/-- The larger of two route states in the lattice order. -/
def latticeMax (a b : SS7RouteState) : SS7RouteState :=
  if SS7RouteState.ord a < SS7RouteState.ord b then b else a

/-- One network examined by SS7Router::setRouteSpecificState: its route
priority toward srcPC, whether it has its own route object for packedPC,
that route's sub-state, and whether the network is operational. -/
structure NetRoute where
  prio : Nat
  hasRoute : Bool
  rstate : SS7RouteState
  oper : Bool
deriving DecidableEq

/-- The router's route toward packedPC: its aggregate state and the
networks attached to it. -/
structure RouteC3 where
  state : SS7RouteState
  nets : List NetRoute
deriving DecidableEq

/-- The network loop of SS7Router::setRouteSpecificState (router.cpp
703-718): on a non-zero priority network with an operational link and a
larger known sub-state, raise best; on a zero-priority network, set its
sub-state to the incoming state and mark ok.  Returns the updated
network list, best and ok. -/
def snssLoop (state : SS7RouteState) :
    List NetRoute → SS7RouteState → Bool → List NetRoute × SS7RouteState × Bool
  | [], best, ok => ([], best, ok)
  | n :: rest, best, ok =>
    if n.hasRoute then
      if n.prio ≠ 0 then
        let best2 := if SS7RouteState.ord best < SS7RouteState.ord n.rstate ∧ n.oper = true
          then n.rstate else best
        let r := snssLoop state rest best2 ok
        (n :: r.1, r.2)
      else
        let r := snssLoop state rest best true
        ({ n with rstate := state } :: r.1, r.2)
    else
      let r := snssLoop state rest best ok
      (n :: r.1, r.2)

/-- SS7Router::setRouteSpecificState (router.cpp 692-727).  Returns none
when the call fails (bad arguments, no route, or no adjacent network was
updated); otherwise the updated route paired with whether routeChanged
was invoked.  Note the aggregate stored on change is the incoming state,
and best is only used for the comparison. -/
def SS7Router.setRouteSpecificState (typeValid : Bool) (packedPC srcPC : Nat)
    (route : Option RouteC3) (state : SS7RouteState) : Option (RouteC3 × Bool) :=
  if ¬typeValid ∨ packedPC = 0 ∨ srcPC = 0 then none
  else
    match route with
    | none => none
    | some r =>
      let res := snssLoop state r.nets state false
      if res.2.2 = false then none
      else if res.2.1 ≠ r.state then
        some (⟨state, res.1⟩, decide (state ≠ SS7RouteState.Unknown))
      else
        some (⟨r.state, res.1⟩, false)

/-- The maximum substate function used by snss-related statements:
fold of latticeMax over the given list, from the given start. -/
def bestAgg (s : SS7RouteState) (nets : List NetRoute) : SS7RouteState :=
  nets.foldl (fun b n => if n.hasRoute && n.prio != 0 && n.oper then latticeMax b n.rstate else b) s

/-- The claim's aggregate: the maximum sub-state among networks whose
link is operational (bottom of the lattice when none is). -/
def maxSubStateOper (nets : List NetRoute) : SS7RouteState :=
  nets.foldl (fun b n => if n.oper then latticeMax b n.rstate else b) SS7RouteState.Prohibited

/-- One attached network of the router, for SS7Router::operational: its
operational(sls) answer. -/
structure NetOper where
  oper : Int → Bool

/-- Router state read by SS7Router::operational: m_started, whether the
isolation timer is started, and the attached networks. -/
structure RouterState where
  started : Bool
  isolating : Bool
  nets : List NetOper

/-- The network scan of SS7Router::operational (router.cpp 337-341). -/
def anyOperational : List NetOper → Int → Bool
  | [], _ => false
  | n :: rest, sls => if n.oper sls then true else anyOperational rest sls

/-- SS7Router::operational (router.cpp 333-343). -/
def SS7Router.operational (st : RouterState) (sls : Int) : Bool :=
  if !st.started || st.isolating then false
  else anyOperational st.nets sls

/-! ## SNM management entity (src/unnamed/part_000) -/

/-- Point code family.  Only ITU and ANSI payload layouts are implemented
by the source; every other family falls into its stub branches. -/
inductive PCType
  | ITU
  | ANSI
  | Other
deriving DecidableEq

/-- A routing label: origin, destination and signalling link selector. -/
structure SS7LabelM where
  opc : Nat
  dpc : Nat
  sls : Nat
deriving DecidableEq

/-- Modelled from the spec: the reply label built by the label constructor
with swapped addresses (yatesig.h, not in src) keeps the SLS and swaps
OPC and DPC. -/
def reverseLabel (l : SS7LabelM) : SS7LabelM :=
  ⟨l.dpc, l.opc, l.sls⟩

/-- Modelled from the spec: SNM heading codes with the group in the top
nibble (yatesig.h enum not in src): COO 0x11, COA 0x12, ECO 0x21,
ECA 0x22. -/
def SS7MsgSNM.COO : Nat := 0x11

/-- SNM heading code COA = 0x12. -/
def SS7MsgSNM.COA : Nat := 0x12

/-- SNM heading code XCO = 0x13. -/
def SS7MsgSNM.XCO : Nat := 0x13

/-- SNM heading code ECO = 0x21. -/
def SS7MsgSNM.ECO : Nat := 0x21

/-- SNM heading code ECA = 0x22. -/
def SS7MsgSNM.ECA : Nat := 0x22

/-- The changeover sequence parsed by SS7MsgSNM::parse (part_000 191-212):
ITU: one byte; ANSI: low nibble of byte 0 is the SLC, the sequence is
byte0 >> 4 with byte 1 shifted in; other families are unimplemented. -/
def parseCOOseq : PCType → List Nat → Option Nat
  | PCType.ITU, b0 :: _ => some b0
  | PCType.ANSI, b0 :: b1 :: _ => some ((b0 >>> 4) ||| (b1 <<< 4))
  | _, _ => none

/-- The SLC parsed by SS7MsgSNM::parse for ANSI changeover messages. -/
def parseCOOslc : PCType → List Nat → Option Nat
  | PCType.ANSI, b0 :: _ :: _ => some (b0 &&& 0x0F)
  | _, _ => none

/-- The sequence parameter available to the changeover branch:
SS7MsgSNM::parse (part_000 191-212) stores a sequence parameter only for
COO and COA messages, so XCO and ECO arrivals never carry one even when
their payload holds sequence bytes. -/
def parsedSeqParam (msgType : Nat) (t : PCType) (payload : List Nat) : Option Nat :=
  if msgType = SS7MsgSNM.COO ∨ msgType = SS7MsgSNM.COA then parseCOOseq t payload else none

/-- The SLC parameter available to the changeover branch, stored by the
parser only for COO and COA (ANSI) messages. -/
def parsedSlcParam (msgType : Nat) (t : PCType) (payload : List Nat) : Option Nat :=
  if msgType = SS7MsgSNM.COO ∨ msgType = SS7MsgSNM.COA then parseCOOslc t payload else none

/-- The COA payload built in the COO branch of SS7Management::receivedMSU
(part_000 405-420): ITU [COA, seq]; ANSI [COA, slc | seq << 4, seq >> 4],
each byte truncated to 8 bits; no payload for other families. -/
def mkCOA (t : PCType) (slc : Nat) (seq : Nat) : Option (List Nat) :=
  match t with
  | PCType.ITU => some [SS7MsgSNM.COA, seq &&& 0xFF]
  | PCType.ANSI =>
      some [SS7MsgSNM.COA, ((slc &&& 0x0F) ||| (seq <<< 4)) &&& 0xFF, (seq >>> 4) &&& 0xFF]
  | PCType.Other => none

/-- Observable effects of the COO/XCO/ECO branch: the label passed to
inhibit(.., Inactive), the sequence passed to recover if any, the COA
payload transmitted if any, the (interval, global) deadlines of a
postponed ECA if any, and the branch's return value. -/
structure COOEffects where
  inhibitInactive : Option SS7LabelM
  recoverSeq : Option Nat
  coaBytes : Option (List Nat)
  ecaPostpone : Option (Nat × Nat)
  handled : Bool
deriving DecidableEq

/-- The COO/XCO/ECO branch of SS7Management::receivedMSU (part_000
386-431).  msgType is the heading code (COO, XCO or ECO); payload holds
the bytes after it; the branch reads the sequence and slc parameters the
parser stored, present only for COO; inhibitOk is the result of
inhibit(lbl, Inactive); routerSeq is router->getSequence(lbl) (-1 when
the router is absent or has no sequence); txOk is whether transmitMSU of
the COA succeeds. -/
def SS7Management.receivedCOO (msgType : Nat) (t : PCType) (label : SS7LabelM)
    (payload : List Nat) (sls : Nat) (inhibitOk : Bool) (routerSeq : Int)
    (txOk : Bool) : COOEffects :=
  let lbl := reverseLabel label
  if inhibitOk then
    let recSeq := parsedSeqParam msgType t payload
    if 0 ≤ routerSeq then
      match mkCOA t ((parsedSlcParam msgType t payload).getD sls) routerSeq.toNat with
      | some bytes => ⟨some lbl, recSeq, some bytes, none, txOk⟩
      | none => ⟨some lbl, recSeq, none, none, false⟩
    else
      ⟨some lbl, recSeq, none, some (0, 200), true⟩
  else
    ⟨some lbl, none, none, none, true⟩

/-- A pending SNM message (SnmPending, part_000 95-124, plus its two
SignallingTimer deadlines): identifying MSU, the retransmit interval and
global timeout intervals, the absolute retransmit deadline, and the
absolute global deadline once the global timer is started. -/
structure SnmPending where
  msuId : Nat
  interval : Nat
  globalInt : Nat
  fireAt : Nat
  globalAt : Option Nat
deriving DecidableEq

/-- Whether a pending message's retransmit deadline has passed (strict,
as SignallingTimer::timeout). -/
def dueAt (now : Nat) (m : SnmPending) : Bool :=
  decide (m.fireAt < now)

/-- The finalization condition of SS7Management::timerTick (part_000 915):
the global timer was never started, or its deadline has passed. -/
def globalExpired (now : Nat) (m : SnmPending) : Bool :=
  match m.globalAt with
  | none => true
  | some g => decide (g < now)

/-- The claim's literal reading: the global deadline has passed (false
when the message has no global deadline). -/
def globalPassedLit (now : Nat) (m : SnmPending) : Bool :=
  match m.globalAt with
  | none => false
  | some g => decide (g < now)

/-- Modelled from the spec: the pending list is an ordered priority queue
by next-fire time (SignallingMessageTimerList, not in src); insertion
keeps ascending fireAt, after existing equal deadlines. -/
def insertByFire (m : SnmPending) : List SnmPending → List SnmPending
  | [] => [m]
  | x :: rest => if m.fireAt < x.fireAt then m :: x :: rest else x :: insertByFire m rest

/-- Modelled from the spec: add(pending, when) re-arms the retransmit
deadline at when + interval and starts the global timer at when + global
if it is configured and not yet started. -/
def requeue (m : SnmPending) (now : Nat) : SnmPending :=
  { m with
    fireAt := now + m.interval,
    globalAt :=
      match m.globalAt with
      | some g => some g
      | none => if m.globalInt ≠ 0 then some (now + m.globalInt) else none }

/-- m_pending.add(msg, when): arm the deadlines and insert in fire order. -/
def addPending (q : List SnmPending) (m : SnmPending) (now : Nat) : List SnmPending :=
  insertByFire (requeue m now) q

/-- SS7Management::postpone (part_000 853-864): transmit immediately
unless interval is 0; enqueue when interval is 0 or the transmission
succeeded, else drop the message.  Returns the new queue, the number of
immediate transmissions attempted, and the return value. -/
def SS7Management.postpone (q : List SnmPending) (msuId interval globalInt : Nat)
    (txOk : Bool) (now : Nat) : List SnmPending × Nat × Bool :=
  if interval = 0 then
    (addPending q ⟨msuId, interval, globalInt, 0, none⟩ now, 0, true)
  else if txOk then
    (addPending q ⟨msuId, interval, globalInt, 0, none⟩ now, 1, true)
  else
    (q, 1, false)

/-- m_pending.timeout(when): pop the head of the fire-ordered queue when
its retransmit deadline has passed. -/
def popDue (now : Nat) : List SnmPending → Option (SnmPending × List SnmPending)
  | [] => none
  | m :: rest => if dueAt now m then some (m, rest) else none

/-- The calls the tick loop makes: finals are the messages passed to
timeout(final = true) (and dropped), retrans the messages passed to
timeout(final = false) and re-transmitted, in processing order. -/
structure TickEffects where
  finals : List SnmPending
  retrans : List SnmPending
deriving DecidableEq

/-- The loop of SS7Management::timerTick (part_000 907-924), with explicit
fuel: pop a due message; if its global timer never started or has passed,
finalize it, else handle it non-finally, re-transmit and re-add it.
The non-final timeout always returns true (part_000 869-870), so the
requeue is unconditional.  Each iteration consumes one due message and
requeued messages are not due, so fuel = number of due messages suffices. -/
def timerTickAux (now : Nat) : Nat → List SnmPending → TickEffects × List SnmPending
  | 0, q => (⟨[], []⟩, q)
  | fuel + 1, q =>
    match popDue now q with
    | none => (⟨[], []⟩, q)
    | some (m, rest) =>
      if globalExpired now m then
        (⟨m :: (timerTickAux now fuel rest).1.finals, (timerTickAux now fuel rest).1.retrans⟩,
         (timerTickAux now fuel rest).2)
      else
        (⟨(timerTickAux now fuel (addPending rest m now)).1.finals,
          m :: (timerTickAux now fuel (addPending rest m now)).1.retrans⟩,
         (timerTickAux now fuel (addPending rest m now)).2)

/-- Number of due messages in a queue. -/
def countDue (now : Nat) (q : List SnmPending) : Nat :=
  (q.filter (dueAt now)).length

/-- SS7Management::timerTick (part_000 907-924). -/
def SS7Management.timerTick (q : List SnmPending) (now : Nat) :
    TickEffects × List SnmPending :=
  timerTickAux now (countDue now q) q

/-! ## Theorems -/

/-- Helper: anyOperational is true exactly when some listed network
reports operational for the given selector. -/
theorem anyOperational_iff (l : List NetOper) (sls : Int) :
    anyOperational l sls = true ↔ ∃ n ∈ l, n.oper sls = true := by
  induction l with
  | nil => simp [anyOperational]
  | cons a t ih =>
    by_cases h : a.oper sls = true
    · simp [anyOperational, h]
    · have hb : a.oper sls = false := by revert h; cases a.oper sls <;> simp
      simp [anyOperational, hb, ih]

/-- Claim C10: SS7Router::operational(sls) returns false whenever the
restart has not completed or the isolation timer is running; otherwise it
returns true exactly when at least one attached network reports
operational(sls). -/
theorem SS7Router.operational_iff (st : RouterState) (sls : Int) :
    SS7Router.operational st sls = true ↔
      st.started = true ∧ st.isolating = false ∧ ∃ n ∈ st.nets, n.oper sls = true := by
  unfold SS7Router.operational
  by_cases h1 : st.started <;> by_cases h2 : st.isolating <;>
    simp [h1, h2, anyOperational_iff]

/-- Claim C6 (code bug evidence): the bit-string encoder emits 8 as the
unused-bits octet for an 8-bit value, and the paired decoder rejects any
unused-bits octet above 7, so the round trip fails with
InvalidLengthOrTag instead of returning the original bits. -/
theorem ASNLib.bitString_roundtrip_bug :
    ASNLib.encodeBitString (List.replicate 8 true) true = [3, 3, 8, 255, 0]
    ∧ ASNLib.decodeBitString (ASNLib.encodeBitString (List.replicate 8 true) true) true
        = (ASNLib.InvalidLengthOrTag, [8, 255, 0], none) := by
  constructor
  · rfl
  · rfl

/-- Claim C7 (code bug evidence): the integer encoder never strips
redundant leading 0xFF bytes (its loop compares the 9 leading bits with
0xFF instead of 0x1FF), so the u64 pattern of -1 encodes as
02 08 FF FF FF FF FF FF FF FF rather than the claimed 02 01 FF, and the
pattern of -128 as 02 08 FF .. FF 80 rather than 02 01 80; stripping of
leading zero bytes does work, so 128 encodes as 02 02 00 80 as claimed;
the oversized encoding of -1 still decodes back to the same u64 value. -/
theorem ASNLib.encodeInteger_bug :
    ASNLib.encodeInteger (2 ^ 64 - 1) true
        = [2, 8, 255, 255, 255, 255, 255, 255, 255, 255]
    ∧ ASNLib.encodeInteger (2 ^ 64 - 1) true ≠ [2, 1, 255]
    ∧ ASNLib.encodeInteger (2 ^ 64 - 128) true
        = [2, 8, 255, 255, 255, 255, 255, 255, 255, 128]
    ∧ ASNLib.encodeInteger (2 ^ 64 - 128) true ≠ [2, 1, 128]
    ∧ ASNLib.encodeInteger 128 true = [2, 2, 0, 128]
    ∧ (ASNLib.decodeInteger (ASNLib.encodeInteger (2 ^ 64 - 1) true) true).2.2
        = some (2 ^ 64 - 1) := by
  refine ⟨by decide, by decide, by decide, by decide, by decide, by decide⟩

/-- Claim C8: encodeOID of the dotted string 1.3.6.1.2.1.1.1.0 produces
exactly 06 08 2B 06 01 02 01 01 01 00, and decodeOID of that encoding
consumes all of it and returns the original dotted string. -/
theorem ASNLib.encodeOID_example :
    ASNLib.encodeOID "1.3.6.1.2.1.1.1.0" true = [6, 8, 43, 6, 1, 2, 1, 1, 1, 0]
    ∧ ASNLib.decodeOID [6, 8, 43, 6, 1, 2, 1, 1, 1, 0] true
        = (8, [], some "1.3.6.1.2.1.1.1.0") := by
  constructor
  · rfl
  · rfl

/-- Claim C9 (counterexample): decodeBoolean on the bytes 01 02 00 00 with
tagCheck fails with InvalidLengthOrTag (content length 2 instead of 1),
yet the tag and length bytes have been consumed; and decodeLength on the
long-form bytes 84 FF FF FF FF wraps its 32-bit accumulator to -1
(= InvalidLengthOrTag) after cutting all five bytes.  Contrary to the
claim, the input is not left unchanged on error. -/
theorem ASNLib.decodeBoolean_consumes_counterexample :
    (ASNLib.decodeBoolean [1, 2, 0, 0] true).1 < 0
    ∧ (ASNLib.decodeBoolean [1, 2, 0, 0] true).2.1 = [0, 0]
    ∧ (ASNLib.decodeBoolean [1, 2, 0, 0] true).2.1 ≠ [1, 2, 0, 0]
    ∧ ASNLib.decodeLength [0x84, 0xFF, 0xFF, 0xFF, 0xFF] = (ASNLib.InvalidLengthOrTag, [])
    ∧ ([] : List Nat) ≠ [0x84, 0xFF, 0xFF, 0xFF, 0xFF] := by
  refine ⟨by decide, by decide, by decide, by decide, by decide⟩

/-- Claim C9 (amended): a failure detected before anything is consumed
leaves the block unchanged: decodeLength consumes nothing when it rejects
a long-form byte count (N = 0 or N > sizeof(int)), and decodeBoolean
consumes nothing when the input is shorter than two bytes or the tag
check fails.  (Errors detected after bytes are cut leave them consumed:
content-length checks, and a 4-byte long-form length at or above 2^31
whose 32-bit accumulator wraps negative after the cut.) -/
theorem ASNLib.decode_error_preservation (data : List Nat) (tagCheck : Bool) :
    (data.headD 0 &&& 0x80 ≠ 0 →
      data.headD 0 &&& 0x7F = 0 ∨ data.headD 0 &&& 0x7F > 4 →
      ASNLib.decodeLength data = (ASNLib.InvalidLengthOrTag, data))
    ∧ (data.length < 2 →
        ASNLib.decodeBoolean data tagCheck = (ASNLib.InvalidLengthOrTag, data, none))
    ∧ (tagCheck = true → data.headD 0 ≠ ASNLib.BOOLEAN →
        ASNLib.decodeBoolean data tagCheck = (ASNLib.InvalidLengthOrTag, data, none)) := by
  refine ⟨?_, ?_, ?_⟩
  · intro hb hcase
    simp only [ASNLib.decodeLength]
    rw [if_pos hb]
    rcases hcase with h0 | h4
    · rw [if_pos h0]
    · rw [if_neg (by omega), if_pos h4]
  · intro h
    simp only [ASNLib.decodeBoolean]
    rw [if_pos h]
  · intro ht hne
    by_cases h2 : data.length < 2
    · simp only [ASNLib.decodeBoolean]
      rw [if_pos h2]
    · simp only [ASNLib.decodeBoolean]
      rw [if_neg h2, if_pos ⟨ht, hne⟩]

/-- Claim C9 witness: the amended theorem applied at concrete inputs: a
long-form length with zero count, and a boolean with a wrong tag. -/
theorem ASNLib.decode_error_preservation_witness :
    ASNLib.decodeLength [0x80, 5] = (ASNLib.InvalidLengthOrTag, [0x80, 5])
    ∧ ASNLib.decodeBoolean [9, 9] true = (ASNLib.InvalidLengthOrTag, [9, 9], none) := by
  refine ⟨(ASNLib.decode_error_preservation [0x80, 5] true).1 (by decide) (Or.inl (by decide)),
    (ASNLib.decode_error_preservation [9, 9] true).2.2 rfl (by decide)⟩

/-- Claim C2 (counterexample): a route whose only attached network is the
source network the MSU came from.  The code transmits on it and returns
its result 5; under the claim's wording (skip the source network) the
result would have to be -1. -/
theorem SS7Route.transmitMSU_source_counterexample :
    SS7Route.transmitMSU [⟨0, 5⟩] 0 0 (some 0) = 5
    ∧ transmitMSU_claimed [⟨0, 5⟩] 0 0 (some 0) = -1
    ∧ SS7Route.transmitMSU [⟨0, 5⟩] 0 0 (some 0)
        ≠ transmitMSU_claimed [⟨0, 5⟩] 0 0 (some 0) := by
  refine ⟨by decide, by decide, by decide⟩

/-- Helper: when every network answers at least -1, the first answer
different from -1 is the first non-negative answer. -/
theorem tryTransmit_eq_firstNonNeg (l : List NetSim) (h : ∀ n ∈ l, -1 ≤ n.tx) :
    tryTransmit l = firstNonNeg (l.map (fun n => n.tx)) := by
  induction l with
  | nil => rfl
  | cons a t ih =>
    have ha := h a (List.mem_cons_self a t)
    have ht : ∀ n ∈ t, -1 ≤ n.tx := fun n hn => h n (List.mem_cons_of_mem a hn)
    by_cases hz : a.tx = -1
    · have : ¬ (0 ≤ a.tx) := by omega
      simp [tryTransmit, firstNonNeg, hz, this, ih ht]
    · have : 0 ≤ a.tx := by omega
      simp [tryTransmit, firstNonNeg, hz, this]

/-- Claim C2 (amended): when the attached networks return only results at
least -1 (their contract: an assigned SLS or -1), SS7Route::transmitMSU
returns the first non-negative transmit result of the networks taken in
list order rotated to start at index (sls >> shift) mod N, or -1 when all
fail; the source network is not skipped. -/
theorem SS7Route.transmitMSU_rotation (nets : List NetSim) (shift sls : Nat)
    (source : Option Nat) (h : ∀ n ∈ nets, -1 ≤ n.tx) :
    SS7Route.transmitMSU nets shift sls source
      = firstNonNeg ((rotateAt nets (sls >>> shift)).map (fun n => n.tx)) := by
  unfold SS7Route.transmitMSU
  apply tryTransmit_eq_firstNonNeg
  intro n hn
  rcases List.mem_append.mp hn with h2 | h2
  · exact h n (List.drop_subset _ _ h2)
  · exact h n (List.take_subset _ _ h2)

/-- Claim C2 witness: the amended theorem at sls = 1, shift = 0 on two
networks: the rotation starts at the second network, whose result 3 is
returned. -/
theorem SS7Route.transmitMSU_rotation_witness :
    SS7Route.transmitMSU [⟨0, -1⟩, ⟨1, 3⟩] 0 1 none = 3 := by
  have h := SS7Route.transmitMSU_rotation [⟨0, -1⟩, ⟨1, 3⟩] 0 1 none (by decide)
  rw [h]
  decide

/-- Claim C3 (counterexample): incoming state Prohibited on a route whose
previous aggregate is Prohibited, with an adjacent (priority-0) network
and a non-adjacent operational network whose sub-state is Allowed.  The
lattice maximum over operational sub-states is Allowed, yet the code
stores Prohibited as the aggregate (it writes the incoming state, using
the maximum only for the change test) and still invokes routeChanged. -/
theorem SS7Router.setRouteSpecificState_counterexample :
    SS7Router.setRouteSpecificState true 5 7
        (some ⟨SS7RouteState.Prohibited,
          [⟨0, true, SS7RouteState.Unknown, true⟩, ⟨1, true, SS7RouteState.Allowed, true⟩]⟩)
        SS7RouteState.Prohibited
      = some (⟨SS7RouteState.Prohibited,
          [⟨0, true, SS7RouteState.Prohibited, true⟩, ⟨1, true, SS7RouteState.Allowed, true⟩]⟩,
          true)
    ∧ maxSubStateOper
        [⟨0, true, SS7RouteState.Prohibited, true⟩, ⟨1, true, SS7RouteState.Allowed, true⟩]
      = SS7RouteState.Allowed
    ∧ SS7RouteState.Prohibited ≠ SS7RouteState.Allowed := by
  refine ⟨by decide, by decide, by decide⟩

/-- Helper: closed form of the setRouteSpecificState network loop: it maps
the sub-state update over the zero-priority networks with a route,
folds the lattice maximum of operational non-zero-priority sub-states
into best, and reports whether a zero-priority network was updated. -/
theorem snssLoop_spec (state : SS7RouteState) (nets : List NetRoute)
    (best : SS7RouteState) (ok : Bool) :
    snssLoop state nets best ok =
      (nets.map (fun n => if n.hasRoute && n.prio == 0 then { n with rstate := state } else n),
       nets.foldl (fun b n =>
         if n.hasRoute && n.prio != 0 && n.oper then latticeMax b n.rstate else b) best,
       ok || nets.any (fun n => n.hasRoute && n.prio == 0)) := by
  induction nets generalizing best ok with
  | nil => simp [snssLoop]
  | cons n t ih =>
    by_cases hr : n.hasRoute
    · by_cases hp : n.prio = 0
      · have hp0 : ¬ n.prio ≠ 0 := by simpa using hp
        simp [snssLoop, hr, hp, hp0, ih]
      · have hpb : (n.prio == 0) = false := by simpa using hp
        by_cases ho : n.oper = true
        · simp [snssLoop, hr, hp, hpb, ho, ih, latticeMax]
        · have ho2 : n.oper = false := by revert ho; cases n.oper <;> simp
          simp [snssLoop, hr, hp, hpb, ho2, ih, latticeMax]
    · have hr2 : n.hasRoute = false := by revert hr; cases n.hasRoute <;> simp
      simp [snssLoop, hr2, ih]

/-- Claim C3 (amended): a successful setRouteSpecificState updates the
sub-state only on networks with a route and priority 0 toward the source;
the aggregate is replaced by the incoming state exactly when the lattice
maximum of the incoming state and the sub-states of operational non-zero
priority networks differs from the previous aggregate, and routeChanged
is invoked exactly when that happens and the incoming state is not
Unknown; the call fails when no zero-priority network has a route. -/
theorem SS7Router.setRouteSpecificState_spec (packedPC srcPC : Nat) (r : RouteC3)
    (state : SS7RouteState) (h1 : packedPC ≠ 0) (h2 : srcPC ≠ 0) :
    SS7Router.setRouteSpecificState true packedPC srcPC (some r) state =
      (if r.nets.any (fun n => n.hasRoute && n.prio == 0) then
        some (⟨if bestAgg state r.nets = r.state then r.state else state,
               r.nets.map (fun n =>
                 if n.hasRoute && n.prio == 0 then { n with rstate := state } else n)⟩,
              decide (bestAgg state r.nets ≠ r.state)
                && decide (state ≠ SS7RouteState.Unknown))
      else none) := by
  unfold SS7Router.setRouteSpecificState
  rw [if_neg (by simp [h1, h2])]
  dsimp only
  rw [snssLoop_spec]
  dsimp only
  have hfold : List.foldl (fun b n =>
      if n.hasRoute && n.prio != 0 && n.oper then latticeMax b n.rstate else b) state r.nets
      = bestAgg state r.nets := rfl
  rw [Bool.false_or, hfold]
  by_cases ha : (r.nets.any fun n => n.hasRoute && n.prio == 0) = true
  · by_cases hb : bestAgg state r.nets = r.state
    · simp [ha, hb]
    · simp [ha, hb]
  · have ha2 : (r.nets.any fun n => n.hasRoute && n.prio == 0) = false := by
      revert ha; cases (r.nets.any fun n => n.hasRoute && n.prio == 0) <;> simp
    simp [ha2]

/-- Claim C3 witness: the amended theorem at a concrete route with one
adjacent network: the sub-state and aggregate become Prohibited and
routeChanged is invoked. -/
theorem SS7Router.setRouteSpecificState_spec_witness :
    SS7Router.setRouteSpecificState true 1 2
        (some ⟨SS7RouteState.Allowed, [⟨0, true, SS7RouteState.Unknown, true⟩]⟩)
        SS7RouteState.Prohibited
      = some (⟨SS7RouteState.Prohibited, [⟨0, true, SS7RouteState.Prohibited, true⟩]⟩, true) := by
  have h := SS7Router.setRouteSpecificState_spec 1 2
    ⟨SS7RouteState.Allowed, [⟨0, true, SS7RouteState.Unknown, true⟩]⟩
    SS7RouteState.Prohibited (by decide) (by decide)
  rw [h]
  decide

/-- Claim C1: after a user-part scan that produced no Accepted or Failure
and left no tentative Unequipped or Inaccessible, for a non-local DPC:
a non-transfer router returns Failure; a transfer router returns Accepted
exactly when routeMSU is non-negative, and otherwise NoAddress when
sendProhibited is set, else Failure. -/
theorem SS7Router.receivedMSU_transit (cfg : RouterCfg) (rsp : List HandledMSU)
    (route : Option RouteSim) (sls : Nat) (src : Option Nat) (ret : HandledMSU)
    (hscan : scanL4 rsp HandledMSU.Unknown = Sum.inr ret)
    (h1 : ret ≠ HandledMSU.Unequipped) (h2 : ret ≠ HandledMSU.Inaccessible) :
    (cfg.transfer = false →
      SS7Router.receivedMSU cfg rsp false route sls src = HandledMSU.Failure)
    ∧ (cfg.transfer = true →
        ((SS7Router.receivedMSU cfg rsp false route sls src = HandledMSU.Accepted)
          ↔ 0 ≤ SS7Router.routeMSU route sls src)
        ∧ (SS7Router.routeMSU route sls src < 0 →
            SS7Router.receivedMSU cfg rsp false route sls src
              = (if cfg.sendProhibited then HandledMSU.NoAddress else HandledMSU.Failure))) := by
  have key : SS7Router.receivedMSU cfg rsp false route sls src
      = routerTail cfg false route sls src := by
    unfold SS7Router.receivedMSU
    rw [hscan]
    cases ret with
    | Unequipped => exact absurd rfl h1
    | Inaccessible => exact absurd rfl h2
    | Unknown => rfl
    | Accepted => rfl
    | Rejected => rfl
    | NoAddress => rfl
    | Failure => rfl
  refine ⟨fun htr => ?_, fun htr => ?_⟩
  · rw [key]
    simp [routerTail, htr]
  · by_cases hr : 0 ≤ SS7Router.routeMSU route sls src
    · have hres : SS7Router.receivedMSU cfg rsp false route sls src = HandledMSU.Accepted := by
        rw [key]; simp [routerTail, htr, hr]
      exact ⟨⟨fun _ => hr, fun _ => hres⟩, fun hlt => absurd hr (by omega)⟩
    · have hres : SS7Router.receivedMSU cfg rsp false route sls src
          = (if cfg.sendProhibited then HandledMSU.NoAddress else HandledMSU.Failure) := by
        rw [key]; simp [routerTail, htr, hr]
      refine ⟨⟨fun hacc => ?_, fun hge => absurd hge hr⟩, fun _ => hres⟩
      rw [hres] at hacc
      cases hsp : cfg.sendProhibited <;> rw [hsp] at hacc <;> simp at hacc

/-- Claim C1 witness: a transfer router whose single user part rejects the
MSU and that has no route for the DPC returns NoAddress (sendProhibited
set). -/
theorem SS7Router.receivedMSU_transit_witness :
    SS7Router.receivedMSU ⟨true, true, true⟩ [HandledMSU.Rejected] false none 0 none
      = HandledMSU.NoAddress := by
  have h := SS7Router.receivedMSU_transit ⟨true, true, true⟩ [HandledMSU.Rejected]
    none 0 none HandledMSU.Unknown rfl (by decide) (by decide)
  have h2 := (h.2 rfl).2 (by decide)
  simpa using h2

/-- Claim C4 (counterexample): an ITU XCO whose payload carries the
sequence byte 42 (present and parseable under the changeover layout) is
not recovered: the parser stores a sequence parameter only for COO and
COA messages, so the recover step of the branch never runs on an XCO (or
ECO) reception, contrary to the claim's recovery clause. -/
theorem SS7Management.receivedCOO_xco_counterexample :
    parseCOOseq PCType.ITU [42] = some 42
    ∧ (SS7Management.receivedCOO SS7MsgSNM.XCO PCType.ITU ⟨1, 2, 3⟩ [42] 3 true (-1) true).recoverSeq
        = none := by
  refine ⟨by decide, by decide⟩

/-- Claim C4 (amended): on a COO/XCO/ECO whose inhibit of the reversed
label as Inactive is accepted, for an implemented point-code family: the
in-flight MSUs are recovered at the parsed sequence only on a COO that
provided one (XCO and ECO arrivals are not parsed for a sequence and
never recover), and either a COA carrying the router's reported send
sequence is transmitted (when the router reports one) or an ECA is
postponed with interval 0 and a 200 ms global deadline. -/
theorem SS7Management.receivedCOO_spec (msgType : Nat) (t : PCType) (label : SS7LabelM)
    (payload : List Nat) (sls : Nat) (routerSeq : Int) (txOk : Bool)
    (ht : t ≠ PCType.Other) :
    (SS7Management.receivedCOO msgType t label payload sls true routerSeq txOk).inhibitInactive
        = some (reverseLabel label)
    ∧ (msgType = SS7MsgSNM.COO →
        (SS7Management.receivedCOO msgType t label payload sls true routerSeq txOk).recoverSeq
            = parseCOOseq t payload)
    ∧ (msgType = SS7MsgSNM.XCO ∨ msgType = SS7MsgSNM.ECO →
        (SS7Management.receivedCOO msgType t label payload sls true routerSeq txOk).recoverSeq
            = none)
    ∧ (0 ≤ routerSeq →
        (SS7Management.receivedCOO msgType t label payload sls true routerSeq txOk).coaBytes
            = mkCOA t ((parsedSlcParam msgType t payload).getD sls) routerSeq.toNat
        ∧ (SS7Management.receivedCOO msgType t label payload sls true routerSeq txOk).ecaPostpone
            = none)
    ∧ (routerSeq < 0 →
        (SS7Management.receivedCOO msgType t label payload sls true routerSeq txOk).ecaPostpone
            = some (0, 200)
        ∧ (SS7Management.receivedCOO msgType t label payload sls true routerSeq txOk).coaBytes
            = none) := by
  have hcoo : ∀ h : msgType = SS7MsgSNM.COO,
      parsedSeqParam msgType t payload = parseCOOseq t payload := by
    intro h
    simp [parsedSeqParam, h]
  have hxeco : ∀ h : msgType = SS7MsgSNM.XCO ∨ msgType = SS7MsgSNM.ECO,
      parsedSeqParam msgType t payload = none := by
    intro h
    have hne : ¬ (msgType = SS7MsgSNM.COO ∨ msgType = SS7MsgSNM.COA) := by
      rcases h with rfl | rfl <;>
        simp [SS7MsgSNM.XCO, SS7MsgSNM.ECO, SS7MsgSNM.COO, SS7MsgSNM.COA]
    simp [parsedSeqParam, hne]
  cases t with
  | Other => exact absurd rfl ht
  | ITU =>
    by_cases hr : 0 ≤ routerSeq
    · refine ⟨?_, fun hc => ?_, fun hx => ?_, fun _ => ⟨?_, ?_⟩,
        fun hlt => absurd hr (by omega)⟩
      · simp [SS7Management.receivedCOO, mkCOA, hr]
      · simp [SS7Management.receivedCOO, mkCOA, hr, hcoo hc]
      · simp [SS7Management.receivedCOO, mkCOA, hr, hxeco hx]
      · simp [SS7Management.receivedCOO, mkCOA, hr]
      · simp [SS7Management.receivedCOO, mkCOA, hr]
    · refine ⟨?_, fun hc => ?_, fun hx => ?_, fun hge => absurd hge hr,
        fun _ => ⟨?_, ?_⟩⟩
      · simp [SS7Management.receivedCOO, hr]
      · simp [SS7Management.receivedCOO, hr, hcoo hc]
      · simp [SS7Management.receivedCOO, hr, hxeco hx]
      · simp [SS7Management.receivedCOO, hr]
      · simp [SS7Management.receivedCOO, hr]
  | ANSI =>
    by_cases hr : 0 ≤ routerSeq
    · refine ⟨?_, fun hc => ?_, fun hx => ?_, fun _ => ⟨?_, ?_⟩,
        fun hlt => absurd hr (by omega)⟩
      · simp [SS7Management.receivedCOO, mkCOA, hr]
      · simp [SS7Management.receivedCOO, mkCOA, hr, hcoo hc]
      · simp [SS7Management.receivedCOO, mkCOA, hr, hxeco hx]
      · simp [SS7Management.receivedCOO, mkCOA, hr]
      · simp [SS7Management.receivedCOO, mkCOA, hr]
    · refine ⟨?_, fun hc => ?_, fun hx => ?_, fun hge => absurd hge hr,
        fun _ => ⟨?_, ?_⟩⟩
      · simp [SS7Management.receivedCOO, hr]
      · simp [SS7Management.receivedCOO, hr, hcoo hc]
      · simp [SS7Management.receivedCOO, hr, hxeco hx]
      · simp [SS7Management.receivedCOO, hr]
      · simp [SS7Management.receivedCOO, hr]

/-- Claim C4 witness: an ITU COO with sequence byte 42 whose router
reports send sequence 42: the link of the reversed label is inhibited,
MSUs are recovered at 42, and a COA with sequence byte 42 goes out. -/
theorem SS7Management.receivedCOO_spec_witness :
    (SS7Management.receivedCOO SS7MsgSNM.COO PCType.ITU ⟨1, 2, 3⟩ [42] 3 true 42 true).inhibitInactive
        = some ⟨2, 1, 3⟩
    ∧ (SS7Management.receivedCOO SS7MsgSNM.COO PCType.ITU ⟨1, 2, 3⟩ [42] 3 true 42 true).recoverSeq
        = some 42
    ∧ (SS7Management.receivedCOO SS7MsgSNM.COO PCType.ITU ⟨1, 2, 3⟩ [42] 3 true 42 true).coaBytes
        = some [SS7MsgSNM.COA, 42]
    ∧ (SS7Management.receivedCOO SS7MsgSNM.COO PCType.ITU ⟨1, 2, 3⟩ [42] 3 true 42 true).ecaPostpone
        = none := by
  have h := SS7Management.receivedCOO_spec SS7MsgSNM.COO PCType.ITU ⟨1, 2, 3⟩ [42] 3 42 true
    (by decide)
  have h4 := h.2.2.2.1 (by decide)
  exact ⟨h.1.trans (by decide), (h.2.1 rfl).trans (by decide), h4.1.trans (by decide), h4.2⟩

/-- Helper: membership in an ordered insertion. -/
theorem mem_insertByFire (m x : SnmPending) (l : List SnmPending) :
    x ∈ insertByFire m l ↔ x = m ∨ x ∈ l := by
  induction l with
  | nil => simp [insertByFire]
  | cons a t ih =>
    by_cases h : m.fireAt < a.fireAt
    · simp [insertByFire, h]
    · simp [insertByFire, h, ih]
      tauto

/-- Helper: ordered insertion preserves the fire-time ordering. -/
theorem sortedByFire_insertByFire (m : SnmPending) (l : List SnmPending)
    (h : List.Pairwise (fun a b => a.fireAt ≤ b.fireAt) l) :
    List.Pairwise (fun a b => a.fireAt ≤ b.fireAt) (insertByFire m l) := by
  induction l with
  | nil => simp [insertByFire]
  | cons a t ih =>
    rcases List.pairwise_cons.mp h with ⟨ha, ht⟩
    by_cases hc : m.fireAt < a.fireAt
    · simp only [insertByFire, if_pos hc]
      refine List.pairwise_cons.mpr ⟨?_, h⟩
      intro b hb
      rcases List.mem_cons.mp hb with rfl | hbt
      · exact Nat.le_of_lt hc
      · exact Nat.le_trans (Nat.le_of_lt hc) (ha b hbt)
    · simp only [insertByFire, if_neg hc]
      refine List.pairwise_cons.mpr ⟨?_, ih ht⟩
      intro b hb
      rcases (mem_insertByFire m b t).mp hb with rfl | hbt
      · exact Nat.le_of_not_lt hc
      · exact ha b hbt

/-- Helper: filtering with a predicate false on the inserted element
ignores the insertion. -/
theorem filter_insertByFire_neg (p : SnmPending → Bool) (m : SnmPending)
    (l : List SnmPending) (hm : p m = false) :
    (insertByFire m l).filter p = l.filter p := by
  induction l with
  | nil => simp [insertByFire, hm]
  | cons a t ih =>
    by_cases h : m.fireAt < a.fireAt
    · simp [insertByFire, h, List.filter_cons, hm]
    · simp [insertByFire, h, List.filter_cons, ih]

/-- Helper: a requeued message is not due at the tick that requeued it. -/
theorem dueAt_requeue (m : SnmPending) (now : Nat) :
    dueAt now (requeue m now) = false := by
  simp [dueAt, requeue]

/-- Helper: full characterization of the tick loop on a fire-ordered queue
with enough fuel: the finalized messages are exactly the due ones whose
global timer never started or expired, the re-transmitted ones are the
other due ones, both in queue order, and the resulting queue holds only
non-due originals and requeues (fireAt = now + interval) of due live
messages. -/
theorem timerTickAux_spec (now : Nat) (fuel : Nat) :
    ∀ (q : List SnmPending), List.Pairwise (fun a b => a.fireAt ≤ b.fireAt) q →
      countDue now q ≤ fuel →
      (timerTickAux now fuel q).1.finals
          = q.filter (fun m => dueAt now m && globalExpired now m)
      ∧ (timerTickAux now fuel q).1.retrans
          = q.filter (fun m => dueAt now m && !globalExpired now m)
      ∧ ∀ x ∈ (timerTickAux now fuel q).2,
          (x ∈ q ∧ dueAt now x = false)
          ∨ ∃ m, m ∈ q ∧ dueAt now m = true ∧ globalExpired now m = false
              ∧ x = requeue m now := by
  induction fuel with
  | zero =>
    intro q hs hc
    have hde : ∀ m ∈ q, dueAt now m = false := by
      have h0 : q.filter (dueAt now) = [] := by
        have hz := Nat.le_zero.mp hc
        exact List.length_eq_zero.mp hz
      intro m hm
      by_contra hne
      have hmt : dueAt now m = true := by revert hne; cases dueAt now m <;> simp
      have hmem : m ∈ q.filter (dueAt now) := List.mem_filter.mpr ⟨hm, hmt⟩
      rw [h0] at hmem
      exact absurd hmem (List.not_mem_nil m)
    refine ⟨?_, ?_, ?_⟩
    · simp only [timerTickAux]
      symm
      refine List.filter_eq_nil_iff.mpr ?_
      intro a ha
      simp [hde a ha]
    · simp only [timerTickAux]
      symm
      refine List.filter_eq_nil_iff.mpr ?_
      intro a ha
      simp [hde a ha]
    · simp only [timerTickAux]
      intro x hx
      exact Or.inl ⟨hx, hde x hx⟩
  | succ fuel ih =>
    intro q hs hc
    cases q with
    | nil =>
      refine ⟨rfl, rfl, ?_⟩
      intro x hx
      simp only [timerTickAux, popDue] at hx
      exact absurd hx (List.not_mem_nil x)
    | cons a t =>
      rcases List.pairwise_cons.mp hs with ⟨hha, hst⟩
      by_cases hda : dueAt now a = true
      · have hsplit : countDue now (a :: t) = countDue now t + 1 := by
          simp [countDue, List.filter_cons, hda]
        have hct : countDue now t ≤ fuel := by omega
        by_cases hg : globalExpired now a = true
        · have ihh := ih t hst hct
          refine ⟨?_, ?_, ?_⟩
          · simp only [timerTickAux, popDue, hda, hg]
            simp [List.filter_cons, hda, hg, ihh.1]
          · simp only [timerTickAux, popDue, hda, hg]
            simp [List.filter_cons, hda, hg, ihh.2.1]
          · intro x hx
            have hx2 : x ∈ (timerTickAux now fuel t).2 := by
              simp only [timerTickAux, popDue, hda, hg] at hx
              simpa [hg] using hx
            rcases ihh.2.2 x hx2 with ⟨hxt, hnd⟩ | ⟨m, hm, hdm, hgm, hxm⟩
            · exact Or.inl ⟨List.mem_cons_of_mem a hxt, hnd⟩
            · exact Or.inr ⟨m, List.mem_cons_of_mem a hm, hdm, hgm, hxm⟩
        · have hg2 : globalExpired now a = false := by
            revert hg; cases globalExpired now a <;> simp
          have hs2 : List.Pairwise (fun a b => a.fireAt ≤ b.fireAt)
              (insertByFire (requeue a now) t) :=
            sortedByFire_insertByFire _ _ hst
          have hnd : dueAt now (requeue a now) = false := dueAt_requeue a now
          have hcd : countDue now (insertByFire (requeue a now) t) = countDue now t := by
            simp [countDue, filter_insertByFire_neg _ _ _ hnd]
          have ihh := ih (insertByFire (requeue a now) t) hs2 (by omega)
          have p1r : (dueAt now (requeue a now) && globalExpired now (requeue a now)) = false := by
            simp [hnd]
          have p2r : (dueAt now (requeue a now) && !globalExpired now (requeue a now)) = false := by
            simp [hnd]
          have f1 : (insertByFire (requeue a now) t).filter
              (fun m => dueAt now m && globalExpired now m)
              = t.filter (fun m => dueAt now m && globalExpired now m) :=
            filter_insertByFire_neg _ _ _ p1r
          have f2 : (insertByFire (requeue a now) t).filter
              (fun m => dueAt now m && !globalExpired now m)
              = t.filter (fun m => dueAt now m && !globalExpired now m) :=
            filter_insertByFire_neg _ _ _ p2r
          refine ⟨?_, ?_, ?_⟩
          · simp only [timerTickAux, popDue, hda, hg2, addPending]
            simp [List.filter_cons, hda, hg2, ihh.1, f1]
          · simp only [timerTickAux, popDue, hda, hg2, addPending]
            simp [List.filter_cons, hda, hg2, ihh.2.1, f2]
          · intro x hx
            have hx2 : x ∈ (timerTickAux now fuel (insertByFire (requeue a now) t)).2 := by
              simp only [timerTickAux, popDue, hda, hg2, addPending] at hx
              simpa [hg2] using hx
            rcases ihh.2.2 x hx2 with ⟨hxt2, hndx⟩ | ⟨m, hm2, hdm, hgm, hxm⟩
            · rcases (mem_insertByFire _ _ _).mp hxt2 with rfl | hxt
              · exact Or.inr ⟨a, List.mem_cons_self a t, hda, hg2, rfl⟩
              · exact Or.inl ⟨List.mem_cons_of_mem a hxt, hndx⟩
            · rcases (mem_insertByFire _ _ _).mp hm2 with rfl | hmt
              · exact absurd hdm (by simp [hnd])
              · exact Or.inr ⟨m, List.mem_cons_of_mem a hmt, hdm, hgm, hxm⟩
      · have hda2 : dueAt now a = false := by
          revert hda; cases dueAt now a <;> simp
        have hall : ∀ m ∈ a :: t, dueAt now m = false := by
          intro m hm
          rcases List.mem_cons.mp hm with rfl | hmt
          · exact hda2
          · have hle := hha m hmt
            simp only [dueAt, decide_eq_false_iff_not] at hda2 ⊢
            omega
        refine ⟨?_, ?_, ?_⟩
        · simp only [timerTickAux, popDue, hda2]
          symm
          refine List.filter_eq_nil_iff.mpr ?_
          intro b hb
          simp [hall b hb]
        · simp only [timerTickAux, popDue, hda2]
          symm
          refine List.filter_eq_nil_iff.mpr ?_
          intro b hb
          simp [hall b hb]
        · intro x hx
          have hx2 : x ∈ a :: t := by
            simp only [timerTickAux, popDue, hda2] at hx
            simpa using hx
          exact Or.inl ⟨hx2, hall x hx2⟩

/-- Claim C5 (counterexample): a due pending message whose global timer
was never started (global = 0, e.g. a COO postponed with interval 1800
and no global deadline).  Its global deadline has not passed under the
claim's reading, yet the tick finalizes and removes it instead of
re-transmitting and requeueing it. -/
theorem SS7Management.timerTick_noGlobal_counterexample :
    globalPassedLit 1 ⟨1, 1800, 0, 0, none⟩ = false
    ∧ (SS7Management.timerTick [⟨1, 1800, 0, 0, none⟩] 1).1.finals = [⟨1, 1800, 0, 0, none⟩]
    ∧ (SS7Management.timerTick [⟨1, 1800, 0, 0, none⟩] 1).1.retrans = []
    ∧ (SS7Management.timerTick [⟨1, 1800, 0, 0, none⟩] 1).2 = [] := by
  refine ⟨by decide, by decide, by decide, by decide⟩

/-- Claim C5 (amended): postpone with a non-zero interval attempts one
immediate transmission and, when it succeeds, enqueues the message with
retransmit deadline now + interval and final expiry now + global (when
global is non-zero); on a tick over a fire-ordered queue, the due
messages whose global timer never started or whose global deadline has
passed are exactly the finalized (and dropped) ones, the other due
messages are exactly the ones handled non-finally and re-transmitted,
and the resulting queue consists only of the untouched non-due messages
and of the re-transmitted ones requeued with the same interval at
fireAt = now + interval. -/
theorem SS7Management.pending_spec (now : Nat) (q : List SnmPending)
    (msuId interval globalInt : Nat)
    (hs : List.Pairwise (fun a b => a.fireAt ≤ b.fireAt) q) :
    (interval ≠ 0 →
      (SS7Management.postpone q msuId interval globalInt true now).2.1 = 1
      ∧ requeue ⟨msuId, interval, globalInt, 0, none⟩ now
          ∈ (SS7Management.postpone q msuId interval globalInt true now).1)
    ∧ (SS7Management.timerTick q now).1.finals
        = q.filter (fun m => dueAt now m && globalExpired now m)
    ∧ (SS7Management.timerTick q now).1.retrans
        = q.filter (fun m => dueAt now m && !globalExpired now m)
    ∧ ∀ x ∈ (SS7Management.timerTick q now).2,
        (x ∈ q ∧ dueAt now x = false)
        ∨ ∃ m, m ∈ q ∧ dueAt now m = true ∧ globalExpired now m = false
            ∧ x = requeue m now := by
  have h := timerTickAux_spec now (countDue now q) q hs (Nat.le_refl _)
  refine ⟨?_, h.1, h.2.1, h.2.2⟩
  intro hi
  unfold SS7Management.postpone
  rw [if_neg hi, if_pos rfl]
  refine ⟨rfl, ?_⟩
  simp only [addPending]
  exact (mem_insertByFire _ _ _).mpr (Or.inl rfl)

/-- Claim C5 witness: the amended theorem on a queue holding one due
message with a live global deadline (fired at 0, global deadline 200,
tick at 5): the message is re-transmitted, not finalized, and postpone
with interval 1000 transmits exactly once. -/
theorem SS7Management.pending_spec_witness :
    (SS7Management.timerTick [⟨7, 0, 200, 0, some 200⟩] 5).1.retrans
        = [⟨7, 0, 200, 0, some 200⟩]
    ∧ (SS7Management.timerTick [⟨7, 0, 200, 0, some 200⟩] 5).1.finals = []
    ∧ (SS7Management.postpone [⟨7, 0, 200, 0, some 200⟩] 3 1000 2000 true 5).2.1 = 1 := by
  have h := SS7Management.pending_spec 5 [⟨7, 0, 200, 0, some 200⟩] 3 1000 2000
    (List.pairwise_singleton _ _)
  refine ⟨?_, ?_, (h.1 (by decide)).1⟩
  · rw [h.2.2.1]
    decide
  · rw [h.2.1]
    decide
